import Mathlib

/-!
Verification of the ravennakit build orchestration script (`build.py`).

The development shallowly embeds the script's data and control flow:

* version parsing (`re.match(r"^v([0-9]+)\.([0-9]+)\.([0-9]+)(.*)$", git_version)`
  in `build_dist`) is embedded as an executable matcher over `List Char` that
  follows Python `re` semantics for this pattern, including the behaviour of
  `.` (does not match a newline) and `$` (matches at the end of the string or
  just before one trailing newline);
* the orchestration in `build` is embedded as a step schedule (`build_steps`)
  together with a sequential executor (`runSteps`) driven by an oracle that
  decides the exit status of each external-process step;
* the Android ABI → vcpkg-triplet dictionary, the credentials check and key
  selection of `upload_to_spaces`, the distribution allow-list and the archive
  naming/overwrite logic of `build_dist` are embedded directly.

External collaborators that live outside this repository (the `CMake` wrapper
from `submodules/build_tools`, the processes spawned with `check=True`) are
modelled from the spec as fallible steps: a step either succeeds or aborts the
whole run, which is what an uncaught `CalledProcessError` does in the script.
-/

namespace Ravenna

/-! ### Version parsing (build.py, build_dist, lines 241-251) -/

/-- One maximal run of `[0-9]` characters: returns the longest digit prefix and
the remainder, exactly what the greedy `[0-9]+` group consumes when the regex
engine never needs to backtrack into it. -/
def spanDigits : List Char → List Char × List Char
  | [] => ([], [])
  | c :: cs =>
    if c.isDigit then (c :: (spanDigits cs).1, (spanDigits cs).2)
    else ([], c :: cs)

/-- Python semantics of `(.*)$` at the end of an anchored pattern (no DOTALL,
no MULTILINE): `.` does not match `'\n'` and `$` matches at the end of the
string or just before a single trailing `'\n'`.  Returns the text captured by
the group, or `none` when `(.*)$` cannot match the remainder. -/
def reTail : List Char → Option (List Char)
  | [] => some []
  | c :: cs =>
    if c = '\n' then (if cs = [] then some [] else none)
    else (reTail cs).map (fun t => c :: t)

/-- One `([0-9]+)` group: fails when no digit is available. -/
def matchNum (s : List Char) : Option (List Char × List Char) :=
  if (spanDigits s).1 = [] then none else some (spanDigits s)

/-- One literal `\.` in the pattern. -/
def matchDot : List Char → Option (List Char)
  | [] => none
  | c :: cs => if c = '.' then some cs else none

/-- The four capture groups of `^v([0-9]+)\.([0-9]+)\.([0-9]+)(.*)$`. -/
structure VParts where
  major : List Char
  minor : List Char
  patch : List Char
  rest : List Char
  deriving DecidableEq

/-- `re.match(r"^v([0-9]+)\.([0-9]+)\.([0-9]+)(.*)$", s)` with Python `re`
semantics: anchored at the start, greedy digit groups (backtracking into them
can never help here because each is followed by `\.` or by `(.*)$`, which in
turn only fails on misplaced newlines that shrinking a digit group cannot
remove), and `(.*)$` as in `reTail`. -/
def reMatchVersion (s : List Char) : Option VParts :=
  match s with
  | [] => none
  | c :: r0 =>
    if c = 'v' then
      (matchNum r0).bind fun p1 =>
      (matchDot p1.2).bind fun r2 =>
      (matchNum r2).bind fun p2 =>
      (matchDot p2.2).bind fun r4 =>
      (matchNum r4).bind fun p3 =>
      (reTail p3.2).map fun t => ⟨p1.1, p2.1, p3.1, t⟩
    else none

instance {ε α : Type} [DecidableEq ε] [DecidableEq α] : DecidableEq (Except ε α)
  | .error e, .error f =>
    if h : e = f then .isTrue (congrArg Except.error h)
    else .isFalse (fun he => h (Except.error.inj he))
  | .error _, .ok _ => .isFalse Except.noConfusion
  | .ok _, .error _ => .isFalse Except.noConfusion
  | .ok a, .ok b =>
    if h : a = b then .isTrue (congrArg Except.ok h)
    else .isFalse (fun he => h (Except.ok.inj he))

/-- Errors of the script; each constructor corresponds to one uncaught Python
exception.  `stepFailed` is the `CalledProcessError` of an external process
step, `keyError` the `KeyError` of a dict subscript, `valueError` the
`ValueError` raised explicitly, `invalidVersionFormat` the
`ValueError(f'Invalid version {git_version}')` of `build_dist`, and
`missingCredentials` the `Exception` of `upload_to_spaces`. -/
inductive RunError where
  | stepFailed (s : String)
  | keyError (key : String)
  | valueError (msg : String)
  | invalidVersionFormat (version : String)
  | missingCredentials (msg : String)
  deriving DecidableEq

/-- Version resolution of `build_dist`: match the regex, raise
`ValueError(f'Invalid version {git_version}')` when it fails
(build.py lines 241-244). -/
def resolveVersion (s : String) : Except RunError VParts :=
  match reMatchVersion s.toList with
  | some g => .ok g
  | none => .error (.invalidVersionFormat s)

/-- The five lines written to `cmake/version.cmake` (build.py lines 246-251),
as character lists; the version components are embedded verbatim. -/
def versionCmakeLines (gitVersion : List Char) (g : VParts) (buildNumber : List Char) :
    List (List Char) :=
  [ ("set(GIT_DESCRIBE_VERSION \"").toList ++ gitVersion ++ ("\")").toList,
    ("set(GIT_VERSION_MAJOR ").toList ++ g.major ++ [')'],
    ("set(GIT_VERSION_MINOR ").toList ++ g.minor ++ [')'],
    ("set(GIT_VERSION_PATCH ").toList ++ g.patch ++ [')'],
    ("set(BUILD_NUMBER ").toList ++ buildNumber ++ [')'] ]

/-- The build-configuration fragment produced by `build_dist` for a given
describe string: parse the version, then write the five `set(...)` lines. -/
def buildDistVersionFragment (s : String) (buildNumber : List Char) :
    Except RunError (List (List Char)) :=
  match reMatchVersion s.toList with
  | some g => .ok (versionCmakeLines s.toList g buildNumber)
  | none => .error (.invalidVersionFormat s)

/-- Numeric value of a digit string, used to state the integer components of
the spec's example `v2.14.3-rc1`. -/
def digitsToNat (ds : List Char) : Nat :=
  ds.foldl (fun n c => 10 * n + (c.toNat - 48)) 0

/-- The informal pattern of the spec: `s` decomposes as
`v<major>.<minor>.<patch><suffix>` with three nonempty digit components and an
arbitrary literal remainder. -/
def VersionShape (s a b c t : List Char) : Prop :=
  s = 'v' :: (a ++ '.' :: (b ++ '.' :: (c ++ t))) ∧
  a ≠ [] ∧ b ≠ [] ∧ c ≠ [] ∧
  (∀ ch ∈ a, ch.isDigit = true) ∧ (∀ ch ∈ b, ch.isDigit = true) ∧
  (∀ ch ∈ c, ch.isDigit = true)

instance (s a b c t : List Char) : Decidable (VersionShape s a b c t) := by
  unfold VersionShape; infer_instance

/-- The suffix of a decomposition starts with a non-digit (or is empty); this
pins down the decomposition chosen by the greedy `([0-9]+)` patch group. -/
def suffixOk : List Char → Bool
  | [] => true
  | c :: _ => !c.isDigit

/-! ### Android ABI mapping (build.py, build_android, lines 169-175) -/

/-- The dict `android_abi_vcpkg_triplets` of `build_android`, in source
order. -/
def android_abi_vcpkg_triplets : List (String × String) :=
  [("arm64-v8a", "arm64-android"), ("armeabi-v7a", "arm-android"),
   ("x86_64", "x64-android"), ("x86", "x86-android")]

/-- The guard `if triplet is None:` of `build_android` (line 174).  `triplet`
is obtained from the dict subscript `android_abi_vcpkg_triplets[arch]`, which
either raises `KeyError` or returns one of the stored `str` values; it is never
`None`, so the comparison is always false. -/
def triplet_is_none (_triplet : String) : Bool := false

/-! ### The step schedule of `build` (build.py, lines 268-331)

`build` runs a fixed sequence of filesystem operations and external-process
invocations determined by the host platform and the CLI arguments; any step
that raises aborts the run (nothing in `build.py` catches exceptions).  We
embed it as a schedule of `Step`s executed in order by `runSteps`.  Exit codes
of external processes are an input to the run, modelled by an `oracle`;
filesystem operations (`mkdir(exist_ok=True)`, `copytree`, `copy2`, `open
... write`, `unlink(missing_ok=True)`, `make_archive`) are modelled as always
succeeding.  A step is identified by its kind and the strings that name the
invocation (subfolder / report / path); the CMake `Config` value and option
map do not distinguish scheduled steps here (the per-variant options are
modelled separately where a claim needs them). -/

inductive Step where
  /-- `Path.mkdir(parents=True, exist_ok=True)` on the given path. -/
  | mkdirP (path : String)
  /-- `cmake.configure()` for the variant built in `subfolder`. -/
  | configure (subfolder : String)
  /-- `cmake.build()` for the variant built in `subfolder`. -/
  | build (subfolder : String)
  /-- the primary `subprocess.run([...], check=True)` of `run_test`. -/
  | test (reportName : String)
  /-- the second run of `run_test` under `arch --x86_64` on ARM Macs. -/
  | testX86 (reportName : String)
  /-- `subprocess.run(['doxygen', 'Doxyfile'], cwd='docs', check=True)`. -/
  | doxygen
  /-- `generate.doxygen_docs()`: footer substitution plus another
  `doxygen` subprocess with `check=True` (docs/generate.py). -/
  | genDocs
  /-- `shutil.copytree(src, dst, dirs_exist_ok=True)`. -/
  | copyTree (src dst : String)
  /-- `shutil.copy2(src, dstDir)`. -/
  | copyFile (src dstDir : String)
  /-- writing a generated file (`version.json` / `cmake/version.cmake`). -/
  | writeFile (path : String)
  /-- the `re.match` version check of `build_dist` (lines 241-244). -/
  | checkVersion (version : String)
  /-- the dict subscript `android_abi_vcpkg_triplets[arch]` plus the dead
  `is None` guard (build_android, lines 172-175). -/
  | resolveTriplet (arch : String)
  /-- `Path.unlink(missing_ok=True)` on a stale archive. -/
  | unlink (path : String)
  /-- `shutil.make_archive(base, 'zip', root)`. -/
  | makeArchive (zipPath root : String)
  /-- `upload_to_spaces` (modelled in detail separately). -/
  | upload
  deriving DecidableEq

/-- Identifier of a step used in the `stepFailed` error payload. -/
def Step.name : Step → String
  | .mkdirP p => "mkdir " ++ p
  | .configure sub => "configure " ++ sub
  | .build sub => "build " ++ sub
  | .test r => "test " ++ r
  | .testX86 r => "testX86 " ++ r
  | .doxygen => "doxygen"
  | .genDocs => "genDocs"
  | .copyTree s d => "copytree " ++ s ++ " " ++ d
  | .copyFile s d => "copy2 " ++ s ++ " " ++ d
  | .writeFile p => "write " ++ p
  | .checkVersion v => "checkVersion " ++ v
  | .resolveTriplet a => "resolveTriplet " ++ a
  | .unlink p => "unlink " ++ p
  | .makeArchive p r => "makeArchive " ++ p ++ " " ++ r
  | .upload => "upload"

/-- Steps whose success depends on an external process exit code. -/
def fallible : Step → Bool
  | .configure _ => true
  | .build _ => true
  | .test _ => true
  | .testX86 _ => true
  | .doxygen => true
  | .genDocs => true
  | .upload => true
  | _ => false

/-- Outcome of one step.  External-process steps succeed iff the oracle says
their exit status is zero, and fail with the `CalledProcessError` /
`BuildFailed` of that step; the version check and the ABI dict subscript are
deterministic; plain filesystem steps succeed. -/
def stepOutcome (oracle : Step → Bool) (s : Step) : Except RunError Unit :=
  match s with
  | .checkVersion v =>
    if (reMatchVersion v.toList).isSome then .ok ()
    else .error (.invalidVersionFormat v)
  | .resolveTriplet arch =>
    match android_abi_vcpkg_triplets.lookup arch with
    | none => .error (.keyError arch)
    | some trp =>
      if triplet_is_none trp then
        .error (.valueError ("Unknown android architecture " ++ arch))
      else .ok ()
  | s =>
    if fallible s then
      (if oracle s then .ok () else .error (.stepFailed s.name))
    else .ok ()

/-- Execute steps in order, fail-fast: the first failing step aborts the run.
Returns the list of attempted steps and the final outcome. -/
def runSteps (oracle : Step → Bool) : List Step → List Step × Except RunError Unit
  | [] => ([], .ok ())
  | s :: rest =>
    match stepOutcome oracle s with
    | .ok () => ((runSteps oracle rest).1.cons s, (runSteps oracle rest).2)
    | .error e => ([s], .error e)

/-- Concatenation of per-element step blocks, used for the fixed fan-outs. -/
def joinBlocks (f : α → List Step) : List α → List Step
  | [] => []
  | x :: xs => f x ++ joinBlocks f xs

/-! ### The variant build functions (build.py, lines 64-203) -/

/-- The steps common to `build_macos` / `build_windows` / `build_linux`: the
skip-build early return, else mkdir then configure then build. -/
def build_variant_steps (skip_build : Bool) (path_to_build subfolder : String) :
    List Step :=
  if skip_build then []
  else [Step.mkdirP (path_to_build ++ "/" ++ subfolder),
        Step.configure subfolder, Step.build subfolder]

/-- The steps of `build_android` (lines 163-203): skip-build early return,
else ABI→triplet resolution (the dict subscript plus dead guard), then mkdir,
configure, build. -/
def build_android_steps (skip_build : Bool) (path_to_build arch subfolder : String) :
    List Step :=
  if skip_build then []
  else [Step.resolveTriplet arch,
        Step.mkdirP (path_to_build ++ "/" ++ subfolder),
        Step.configure subfolder, Step.build subfolder]

/-- `build_android` as a function: run its steps and, when none fails, return
the variant's build directory (which is also what the skip-build early return
yields without running any step). -/
def build_android (oracle : Step → Bool) (skip_build : Bool)
    (path_to_build arch subfolder : String) :
    List Step × Except RunError String :=
  ((runSteps oracle (build_android_steps skip_build path_to_build arch subfolder)).1,
   (runSteps oracle (build_android_steps skip_build path_to_build arch subfolder)).2.map
     (fun _ => path_to_build ++ "/" ++ subfolder))

/-- The NDK-dependent cmake options of `build_android` (lines 190-198);
`home` stands for `Path.home()` and `triplet` for the resolved vcpkg
triplet. -/
def android_cmake_options (home build_number arch triplet : String)
    (spdlog : Bool) : List (String × String) :=
  [("CMAKE_TOOLCHAIN_FILE", "submodules/vcpkg/scripts/buildsystems/vcpkg.cmake"),
   ("VCPKG_CHAINLOAD_TOOLCHAIN_FILE",
    home ++ "/Library/Android/sdk/ndk/23.1.7779620/build/cmake/android.toolchain.cmake"),
   ("VCPKG_TARGET_TRIPLET", triplet),
   ("ANDROID_ABI", arch),
   ("ANDROID_PLATFORM", "android-21"),
   ("BUILD_NUMBER", build_number)]
  ++ (if spdlog then [("RAV_ENABLE_SPDLOG", "ON")] else [])

/-- `run_test` (build.py, lines 275-285): the primary test invocation, and on
an ARM-based Darwin host a second invocation under `arch --x86_64`. -/
def run_test_steps (system_darwin processor_arm : Bool) (reportName : String) :
    List Step :=
  [Step.test reportName]
  ++ (if system_darwin && processor_arm then [Step.testX86 reportName] else [])

/-! ### Distribution assembly (build.py, build_dist, lines 206-265) -/

/-- The eight `shutil.copytree` sources of `build_dist`, in source order. -/
def copytree_dirs : List String :=
  ["cmake", "docs", "examples", "include", "src", "test", "triplets",
   "submodules/vcpkg"]

/-- The six `shutil.copy2` sources of `build_dist`, in source order. -/
def copy2_files : List String :=
  [".clang-format", ".gitignore", "CMakeLists.txt", "LICENSE.md", "README.md",
   "vcpkg.json"]

/-- Does a working-tree file (a path relative to the repo root) get copied
into the staging directory?  `copytree d` copies exactly the files below
`d/`; `copy2 f` copies exactly the file `f`. -/
def pathUnder (d : String) (f : String) : Bool :=
  List.isPrefixOf (d ++ "/").toList f.toList

def allowListed (f : String) : Bool :=
  copytree_dirs.any (fun d => pathUnder d f)
  || copy2_files.any (fun g => decide (g = f))

/-- The working-tree files that `build_dist` copies into the staging tree. -/
def distStagedFiles (workTree : List String) : List String :=
  workTree.filter allowListed

/-- The files in the full distribution archive: the staged copies plus the two
generated metadata files `version.json` and `cmake/version.cmake`, which are
written into the staging tree before it is zipped. -/
def distArchiveFiles (workTree : List String) : List String :=
  distStagedFiles workTree ++ ["version.json", "cmake/version.cmake"]

/-- `args.path_to_build + '/ravennakit-' + git_version + '-' + args.build_number
+ '-docs'` (line 254). -/
def docs_archive_base (path_to_build version build_number : String) : String :=
  path_to_build ++ "/ravennakit-" ++ version ++ "-" ++ build_number ++ "-docs"

/-- Same with `'-dist'` (line 260). -/
def dist_archive_base (path_to_build version build_number : String) : String :=
  path_to_build ++ "/ravennakit-" ++ version ++ "-" ++ build_number ++ "-dist"

/-- The value `build_dist` returns: the dist zip path (line 265). -/
def build_dist_return (path_to_build version build_number : String) : String :=
  dist_archive_base path_to_build version build_number ++ ".zip"

/-- Archive-phase filesystem operations of `build_dist` (lines 253-263). -/
inductive FsOp where
  /-- `Path(p).unlink(missing_ok=True)`. -/
  | unlink (p : String)
  /-- `shutil.make_archive(base, 'zip', root)` producing `p = base + '.zip'`;
  the archive content is a fresh zip of `root` (never an append to an existing
  file). -/
  | writeZip (p : String) (root : String)
  deriving DecidableEq

/-- The four archive-phase operations, in source order: remove then write the
docs zip, remove then write the dist zip. -/
def zip_ops (path_to_build version build_number : String) : List FsOp :=
  [FsOp.unlink (docs_archive_base path_to_build version build_number ++ ".zip"),
   FsOp.writeZip (docs_archive_base path_to_build version build_number ++ ".zip")
     (path_to_build ++ "/dist/docs/html"),
   FsOp.unlink (dist_archive_base path_to_build version build_number ++ ".zip"),
   FsOp.writeZip (dist_archive_base path_to_build version build_number ++ ".zip")
     (path_to_build ++ "/dist")]

/-- Effect of one archive-phase operation on the filesystem, modelled as a map
from path to the root directory whose fresh zip is stored there. -/
def applyFsOp (fs : String → Option String) : FsOp → String → Option String
  | .unlink p => fun q => if q = p then none else fs q
  | .writeZip p root => fun q => if q = p then some root else fs q

def applyFsOps (fs : String → Option String) : List FsOp → String → Option String
  | [] => fs
  | op :: ops => applyFsOps (applyFsOp fs op) ops

/-- The path written by a `writeZip`, if any. -/
def FsOp.writtenPath : FsOp → Option String
  | .unlink _ => none
  | .writeZip p _ => some p

/-- The steps of `build_dist` (lines 206-263), in source order: mkdir the
staging dir, run doxygen, run the docs generator, copy the allow-list, write
`version.json`, check the version and write `cmake/version.cmake`, then remove
and recreate the two archives. -/
def build_dist_steps (path_to_build gitVersion build_number : String) : List Step :=
  [Step.mkdirP (path_to_build ++ "/dist"), Step.doxygen, Step.genDocs]
  ++ copytree_dirs.map (fun d => Step.copyTree d (path_to_build ++ "/dist/" ++ d))
  ++ copy2_files.map (fun f => Step.copyFile f (path_to_build ++ "/dist"))
  ++ [Step.writeFile (path_to_build ++ "/dist/version.json"),
      Step.checkVersion gitVersion,
      Step.writeFile (path_to_build ++ "/dist/cmake/version.cmake"),
      Step.unlink (docs_archive_base path_to_build gitVersion build_number ++ ".zip"),
      Step.makeArchive
        (docs_archive_base path_to_build gitVersion build_number ++ ".zip")
        (path_to_build ++ "/dist/docs/html"),
      Step.unlink (dist_archive_base path_to_build gitVersion build_number ++ ".zip"),
      Step.makeArchive
        (dist_archive_base path_to_build gitVersion build_number ++ ".zip")
        (path_to_build ++ "/dist")]

/-! ### The orchestrator `build` (build.py, lines 268-331) -/

/-- The CLI arguments consumed by `build` (argparse, lines 334-424). -/
structure Args where
  debug : Bool
  path_to_build : String
  dist : Bool
  build_number : String
  skip_build : Bool
  upload : Bool
  android : Bool
  asan : Bool
  tsan : Bool
  deriving DecidableEq

def mkArgs (debug : Bool) (path_to_build : String) (dist : Bool)
    (build_number : String) (skip_build upload android asan tsan : Bool) : Args :=
  ⟨debug, path_to_build, dist, build_number, skip_build, upload, android, asan,
   tsan⟩

/-- `platform.system()` values distinguished by `build`. -/
inductive HostSystem where
  | darwin
  | windows
  | linux
  deriving DecidableEq

/-- The host: `platform.system()` and whether `platform.processor()` is
`'arm'`. -/
structure Host where
  system : HostSystem
  processor_arm : Bool
  deriving DecidableEq

/-- The Android fan-out of `build` (lines 291-301): the `(arch, subfolder,
spdlog)` arguments of the eight `build_android` calls, in source order.  The
call sequence is written out literally in the source and does not consult
`args.debug` / `args.asan` / `args.tsan` (only `build_config`, which changes
cmake options, depends on `args.debug`). -/
def android_variant_calls : List (String × String × Bool) :=
  [("arm64-v8a", "android_arm64", false),
   ("arm64-v8a", "android_arm64_spdlog", true),
   ("x86_64", "android_x64", false),
   ("x86_64", "android_x64_spdlog", true),
   ("armeabi-v7a", "android_arm", false),
   ("armeabi-v7a", "android_arm_spdlog", true),
   ("x86", "android_x86", false),
   ("x86", "android_x86_spdlog", true)]

/-- The step schedule of `build` (lines 268-331): the test-reports mkdir, then
the platform branch, then the upload (which runs only when a dist archive was
produced and `--upload` was given). -/
def build_steps (host : Host) (args : Args) (gitVersion : String) : List Step :=
  [Step.mkdirP "test-reports"]
  ++ (match host.system with
      | .darwin =>
        if args.dist then
          build_dist_steps args.path_to_build gitVersion args.build_number
        else if args.android then
          joinBlocks
            (fun c => build_android_steps args.skip_build args.path_to_build
              c.1 c.2.1)
            android_variant_calls
        else
          build_variant_steps args.skip_build args.path_to_build "macos_universal"
          ++ run_test_steps true host.processor_arm "macos_universal"
          ++ (if args.asan then
                build_variant_steps args.skip_build args.path_to_build
                  "macos_universal_spdlog_asan"
                ++ run_test_steps true host.processor_arm
                  "macos_universal_spdlog_asan"
              else [])
          ++ (if args.tsan then
                build_variant_steps args.skip_build args.path_to_build
                  "macos_universal_spdlog_tsan"
                ++ run_test_steps true host.processor_arm
                  "macos_universal_spdlog_tsan"
              else [])
      | .windows =>
        build_variant_steps args.skip_build args.path_to_build "windows_x64"
        ++ run_test_steps false host.processor_arm "windows_x64"
        ++ build_variant_steps args.skip_build args.path_to_build
          "windows_x64_spdlog"
        ++ run_test_steps false host.processor_arm "windows_x64_spdlog"
      | .linux =>
        build_variant_steps args.skip_build args.path_to_build "linux_x64"
        ++ run_test_steps false host.processor_arm "linux_x64"
        ++ build_variant_steps args.skip_build args.path_to_build
          "linux_x64_spdlog"
        ++ run_test_steps false host.processor_arm "linux_x64_spdlog")
  ++ (if host.system == HostSystem.darwin && args.dist && args.upload then
        [Step.upload]
      else [])

/-- One run of `build`: execute the schedule fail-fast. -/
def build (host : Host) (args : Args) (gitVersion : String)
    (oracle : Step → Bool) : List Step × Except RunError Unit :=
  runSteps oracle (build_steps host args gitVersion)

/-- Steps belonging to a variant's build/test flow (the claims' "configure,
build, or test step of a variant"). -/
def is_variant_step : Step → Bool
  | .configure _ => true
  | .build _ => true
  | .test _ => true
  | .testX86 _ => true
  | _ => false

def is_test_step : Step → Bool
  | .test _ => true
  | .testX86 _ => true
  | _ => false

def is_configure_step : Step → Bool
  | .configure _ => true
  | _ => false

/-- No step of the list is a configure/build/test step of a variant. -/
def NoVariantStep (l : List Step) : Prop :=
  ∀ s ∈ l, is_variant_step s = false

/-! ### The artifact publisher (build.py, upload_to_spaces, lines 33-61) -/

/-- Python truthiness of an optional string argument: `argparse` yields `None`
when the flag is absent, and `''` is also falsy. -/
def truthy : Option String → Bool
  | none => false
  | some s => !(s = "")

/-- `upload_to_spaces`: credential checks in source order, then the
destination key: `branches/<branch>/<name>`, overridden to
`archive/<version>/<name>` when the branch shorthand is `HEAD`.  Returns the
`(bucket, object key)` passed to `client.upload_file`. -/
def upload_to_spaces (spaces_key spaces_secret : Option String)
    (git_branch git_version fileName : String) :
    Except RunError (String × String) :=
  if !truthy spaces_key then .error (.missingCredentials "Need spaces key")
  else if !truthy spaces_secret then
    .error (.missingCredentials "Need spaces secret")
  else
    let folder := "branches/" ++ git_branch
    let folder := if git_branch = "HEAD" then "archive/" ++ git_version else folder
    .ok ("ravennakit", folder ++ "/" ++ fileName)

/-- The subfolders (also used as report names) of the variants that `build`
builds and tests, per platform: the macOS base/asan/tsan sequence, or the
fixed two-variant Windows/Linux sequences.  (The Android fan-out and the dist
flow are not in this list: neither runs `run_test`.) -/
def tested_variant_plan (host : Host) (args : Args) : List String :=
  match host.system with
  | .darwin =>
    ["macos_universal"]
    ++ (if args.asan then ["macos_universal_spdlog_asan"] else [])
    ++ (if args.tsan then ["macos_universal_spdlog_tsan"] else [])
  | .windows => ["windows_x64", "windows_x64_spdlog"]
  | .linux => ["linux_x64", "linux_x64_spdlog"]

/-! ### Concrete fixtures used by witnesses and counterexamples -/

def hostLinux : Host := ⟨.linux, false⟩

def hostDarwin : Host := ⟨.darwin, false⟩

def hostDarwinArm : Host := ⟨.darwin, true⟩

/-- The argparse defaults: a plain `./build.py` run. -/
def argsPlain : Args := mkArgs false "build" false "0" false false false false false

/-- `./build.py --android`. -/
def argsAndroid : Args := mkArgs false "build" false "0" false false true false false

/-- `./build.py --dist`. -/
def argsDist : Args := mkArgs false "build" true "0" false false false false false

/-- An environment in which every external process succeeds. -/
def oracleAll : Step → Bool := fun _ => true

/-- An environment in which exactly the configure of `linux_x64` fails. -/
def oracleFailLinuxConf : Step → Bool := fun s => !(s == Step.configure "linux_x64")

/-! ## Theorems -/

/-! ### Lemmas about the version matcher -/

theorem spanDigits_split (cs : List Char) :
    (spanDigits cs).1 ++ (spanDigits cs).2 = cs := by
  induction cs with
  | nil => rfl
  | cons c cs ih => cases h : c.isDigit <;> simp [spanDigits, h, ih]

theorem spanDigits_digits (cs : List Char) :
    ∀ ch ∈ (spanDigits cs).1, ch.isDigit = true := by
  induction cs with
  | nil => simp [spanDigits]
  | cons c cs ih =>
    cases h : c.isDigit with
    | false => simp [spanDigits, h]
    | true =>
      intro ch hch
      simp only [spanDigits, h, if_true, List.mem_cons] at hch
      rcases hch with rfl | hch
      · exact h
      · exact ih ch hch

theorem spanDigits_rest_head (cs : List Char) :
    ∀ c r, (spanDigits cs).2 = c :: r → c.isDigit = false := by
  induction cs with
  | nil => intro c r h; simp [spanDigits] at h
  | cons x xs ih =>
    intro c r h
    cases hx : x.isDigit with
    | true => exact ih c r (by simpa [spanDigits, hx] using h)
    | false =>
      simp only [spanDigits, hx, if_neg Bool.false_ne_true, List.cons.injEq] at h
      exact h.1 ▸ hx

theorem spanDigits_append (a r : List Char) (h : ∀ ch ∈ a, ch.isDigit = true) :
    spanDigits (a ++ r) = (a ++ (spanDigits r).1, (spanDigits r).2) := by
  induction a with
  | nil => simp
  | cons c a ih =>
    have hc : c.isDigit = true := h c (by simp)
    have ih2 := ih (fun ch hch => h ch (by simp [hch]))
    simp [spanDigits, hc, ih2]

theorem reTail_of_no_newline (r : List Char) (h : ∀ ch ∈ r, ch ≠ '\n') :
    reTail r = some r := by
  induction r with
  | nil => rfl
  | cons c cs ih =>
    have hc : c ≠ '\n' := h c (by simp)
    have ih2 := ih (fun ch hch => h ch (by simp [hch]))
    simp [reTail, hc, ih2]

theorem matchNum_eq_some {s : List Char} {p : List Char × List Char} :
    matchNum s = some p ↔ (spanDigits s).1 ≠ [] ∧ p = spanDigits s := by
  by_cases h : (spanDigits s).1 = [] <;> simp [matchNum, h, eq_comm]

theorem matchDot_eq_some {r r2 : List Char} :
    matchDot r = some r2 ↔ r = '.' :: r2 := by
  cases r with
  | nil => simp [matchDot]
  | cons c cs => by_cases h : c = '.' <;> simp [matchDot, h]

/-- Soundness of the matcher on newline-free input: a successful match is a
decomposition of the input in the sense of the spec's pattern, and the suffix
group starts with a non-digit. -/
theorem reMatch_sound {s : List Char} {g : VParts}
    (hnl : ∀ ch ∈ s, ch ≠ '\n') (h : reMatchVersion s = some g) :
    VersionShape s g.major g.minor g.patch g.rest ∧ suffixOk g.rest = true := by
  cases s with
  | nil => simp [reMatchVersion] at h
  | cons c r0 =>
    by_cases hc : c = 'v'
    case neg => simp [reMatchVersion, hc] at h
    subst hc
    simp only [reMatchVersion, if_true, Option.bind_eq_some, Option.map_eq_some'] at h
    obtain ⟨p1, hp1, r2, hr2, p2, hp2, r4, hr4, p3, hp3, t, htl, hg⟩ := h
    obtain ⟨ha, hp1e⟩ := matchNum_eq_some.mp hp1
    obtain ⟨hb, hp2e⟩ := matchNum_eq_some.mp hp2
    obtain ⟨hcne, hp3e⟩ := matchNum_eq_some.mp hp3
    have hd1 : p1.2 = '.' :: r2 := matchDot_eq_some.mp hr2
    have hd2 : p2.2 = '.' :: r4 := matchDot_eq_some.mp hr4
    have hs0 : r0 = p1.1 ++ '.' :: r2 := by
      rw [hp1e] at hd1 ⊢; rw [← hd1]; exact (spanDigits_split r0).symm
    have hs2 : r2 = p2.1 ++ '.' :: r4 := by
      rw [hp2e] at hd2 ⊢; rw [← hd2]; exact (spanDigits_split r2).symm
    have hs4 : r4 = p3.1 ++ p3.2 := by
      rw [hp3e]; exact (spanDigits_split r4).symm
    have hmem : ∀ ch ∈ p3.2, ch ≠ '\n' := by
      intro ch hch
      exact hnl ch (by
        simp only [hs0, hs2, hs4, List.mem_cons, List.mem_append]
        exact Or.inr (Or.inr (by simp [hch])))
    have htt : t = p3.2 := by
      rw [reTail_of_no_newline p3.2 hmem] at htl
      exact (Option.some.inj htl).symm
    have hshape : VersionShape ('v' :: r0) g.major g.minor g.patch g.rest := by
      refine ⟨?_, ?_, ?_, ?_, ?_, ?_, ?_⟩
      · rw [← hg]
        simp only [hs0, hs2, hs4, htt]
      · rw [← hg]; simpa [hp1e] using ha
      · rw [← hg]; simpa [hp2e] using hb
      · rw [← hg]; simpa [hp3e] using hcne
      · rw [← hg]; intro ch hch; exact spanDigits_digits r0 ch (hp1e ▸ hch)
      · rw [← hg]; intro ch hch; exact spanDigits_digits r2 ch (hp2e ▸ hch)
      · rw [← hg]; intro ch hch; exact spanDigits_digits r4 ch (hp3e ▸ hch)
    refine ⟨hshape, ?_⟩
    rw [← hg]
    simp only [htt]
    cases hrest : p3.2 with
    | nil => simp [suffixOk]
    | cons x xs =>
      have hx : x.isDigit = false := by
        apply spanDigits_rest_head r4 x xs
        rw [← hp3e]; exact hrest
      simp [suffixOk, hx]

/-- Exactness of the matcher on newline-free input: the decomposition whose
suffix starts with a non-digit (the greedy one) is returned verbatim. -/
theorem reMatch_exact {s a b c t : List Char}
    (hnl : ∀ ch ∈ s, ch ≠ '\n') (hs : VersionShape s a b c t)
    (ht : suffixOk t = true) : reMatchVersion s = some ⟨a, b, c, t⟩ := by
  obtain ⟨heq, ha, hb, hc, hda, hdb, hdc⟩ := hs
  subst heq
  have hdot : ('.' : Char).isDigit = false := by decide
  have h1 : spanDigits (a ++ '.' :: (b ++ '.' :: (c ++ t)))
      = (a, '.' :: (b ++ '.' :: (c ++ t))) := by
    rw [spanDigits_append a _ hda]; simp [spanDigits, hdot]
  have h2 : spanDigits (b ++ '.' :: (c ++ t)) = (b, '.' :: (c ++ t)) := by
    rw [spanDigits_append b _ hdb]; simp [spanDigits, hdot]
  have h3 : spanDigits (c ++ t) = (c, t) := by
    rw [spanDigits_append c t hdc]
    cases t with
    | nil => simp [spanDigits]
    | cons x xs =>
      have hx : x.isDigit = false := by
        cases hxd : x.isDigit
        · rfl
        · simp [suffixOk, hxd] at ht
      simp [spanDigits, hx]
  have ht2 : reTail t = some t := by
    apply reTail_of_no_newline
    intro ch hch
    exact hnl ch (by simp [List.mem_cons, List.mem_append, hch])
  simp [reMatchVersion, matchNum, matchDot, h1, h2, h3, ha, hb, hc, ht2]

/-- Any decomposition can be extended to the greedy one: move the digit prefix
of the suffix into the patch component. -/
theorem shape_refine {s a b c t : List Char} (hs : VersionShape s a b c t) :
    ∃ c2 t2, VersionShape s a b c2 t2 ∧ suffixOk t2 = true := by
  obtain ⟨heq, ha, hb, hc, hda, hdb, hdc⟩ := hs
  refine ⟨c ++ (spanDigits t).1, (spanDigits t).2, ⟨?_, ha, hb, ?_, hda, hdb, ?_⟩, ?_⟩
  · rw [heq, List.append_assoc, spanDigits_split t]
  · simp [hc]
  · intro ch hch
    rcases List.mem_append.mp hch with hch | hch
    · exact hdc ch hch
    · exact spanDigits_digits t ch hch
  · cases hrest : (spanDigits t).2 with
    | nil => rfl
    | cons x xs => simp [suffixOk, spanDigits_rest_head t x xs hrest]

/-- C1 (amended to newline-free version strings): on any describe string
without a newline character, if the string decomposes as
`v<major>.<minor>.<patch><suffix>` with nonempty digit components, version
resolution succeeds — and for the (unique) decomposition whose suffix does not
start with a digit it yields exactly those components, which the generated
`cmake/version.cmake` fragment embeds verbatim; if no such decomposition
exists, resolution fails with `InvalidVersionFormat`
(`ValueError(f'Invalid version ...')`). -/
theorem C1_version_resolution (s : String) (bn : List Char)
    (hnl : ∀ ch ∈ s.toList, ch ≠ '\n') :
    (∀ a b c t, VersionShape s.toList a b c t → suffixOk t = true →
      resolveVersion s = .ok ⟨a, b, c, t⟩ ∧
      buildDistVersionFragment s bn = .ok (versionCmakeLines s.toList ⟨a, b, c, t⟩ bn)) ∧
    ((∃ a b c t, VersionShape s.toList a b c t) → ∃ g, resolveVersion s = .ok g) ∧
    ((∀ a b c t, ¬ VersionShape s.toList a b c t) →
      resolveVersion s = .error (.invalidVersionFormat s)) := by
  refine ⟨?_, ?_, ?_⟩
  · intro a b c t hs ht
    have hm := reMatch_exact hnl hs ht
    simp only [String.toList] at hm
    constructor <;> simp [resolveVersion, buildDistVersionFragment, hm]
  · rintro ⟨a, b, c, t, hs⟩
    obtain ⟨c2, t2, hs2, ht2⟩ := shape_refine hs
    have hm := reMatch_exact hnl hs2 ht2
    simp only [String.toList] at hm
    exact ⟨⟨a, b, c2, t2⟩, by simp [resolveVersion, hm]⟩
  · intro hnone
    cases hm : reMatchVersion s.toList with
    | none =>
      simp only [String.toList] at hm
      simp [resolveVersion, hm]
    | some g => exact absurd (reMatch_sound hnl hm).1 (hnone _ _ _ _)

/-- C1 witness: the spec's own example `v2.14.3-rc1` resolves to major `2`,
minor `14`, patch `3`, suffix `-rc1`, and the fragment embeds them. -/
theorem C1_version_resolution_witness :
    resolveVersion "v2.14.3-rc1" = .ok ⟨['2'], ['1', '4'], ['3'], ['-', 'r', 'c', '1']⟩ ∧
    digitsToNat ['2'] = 2 ∧ digitsToNat ['1', '4'] = 14 ∧ digitsToNat ['3'] = 3 ∧
    buildDistVersionFragment "v2.14.3-rc1" ['7'] =
      .ok (versionCmakeLines "v2.14.3-rc1".toList
        ⟨['2'], ['1', '4'], ['3'], ['-', 'r', 'c', '1']⟩ ['7']) := by
  have h := (C1_version_resolution "v2.14.3-rc1" ['7'] (by decide)).1
    ['2'] ['1', '4'] ['3'] ['-', 'r', 'c', '1'] (by decide) (by decide)
  exact ⟨h.1, by decide, by decide, by decide, h.2⟩

/-- C1 counterexample: `"v1.2.3\nx"` matches the spec's informal pattern
`v<digits>.<digits>.<digits><suffix>` (suffix `"\nx"`), yet resolution fails,
because Python's `.` does not match a newline; and for `"v1.2.3\n"` the match
succeeds but the captured suffix is `""`, not the literal remainder `"\n"`,
because `$` matches just before a trailing newline. -/
theorem C1_counterexample :
    VersionShape "v1.2.3\nx".toList ['1'] ['2'] ['3'] ['\n', 'x'] ∧
    reMatchVersion "v1.2.3\nx".toList = none ∧
    resolveVersion "v1.2.3\nx" = .error (.invalidVersionFormat "v1.2.3\nx") ∧
    resolveVersion "v1.2.3\n" = .ok ⟨['1'], ['2'], ['3'], []⟩ := by decide

/-! ### Lemmas about the step executor -/

theorem runSteps_trace_subset (oracle : Step → Bool) (l : List Step) :
    ∀ s ∈ (runSteps oracle l).1, s ∈ l := by
  induction l with
  | nil => simp [runSteps]
  | cons x xs ih =>
    intro s hs
    cases h : stepOutcome oracle x with
    | ok u =>
      cases u
      simp only [runSteps, h, List.cons] at hs
      rcases List.mem_cons.mp hs with rfl | hs
      · exact List.mem_cons_self _ _
      · exact List.mem_cons_of_mem _ (ih s hs)
    | error e =>
      simp only [runSteps, h] at hs
      rw [List.mem_singleton.mp hs]
      exact List.mem_cons_self _ _

/-- Fail-fast behaviour of the executor: if every step before position `k`
succeeds and the step at position `k` fails, then exactly the first `k + 1`
steps are attempted and the run ends with that step's error. -/
theorem runSteps_fail (oracle : Step → Bool) (e : RunError) :
    ∀ (steps : List Step) (k : Nat) (s : Step),
      steps.get? k = some s →
      (∀ x ∈ steps.take k, stepOutcome oracle x = .ok ()) →
      stepOutcome oracle s = .error e →
      runSteps oracle steps = (steps.take (k + 1), .error e) := by
  intro steps
  induction steps with
  | nil => intro k s hget; simp at hget
  | cons st rest ih =>
    intro k s hget hpre herr
    cases k with
    | zero =>
      have hst : st = s := by simpa using hget
      subst hst
      simp [runSteps, herr, List.take]
    | succ k =>
      have h0 : stepOutcome oracle st = .ok () := hpre st (by simp [List.take_succ_cons])
      have ih2 := ih k s (by simpa using hget)
        (fun x hx => hpre x (by simp only [List.take_succ_cons, List.mem_cons]; exact Or.inr hx))
        herr
      simp [runSteps, h0, ih2, List.take_succ_cons]

/-! ### C2: the Android ABI → triplet mapping -/

/-- C2: the dict `android_abi_vcpkg_triplets` is total over the four supported
ABI strings (with the documented triplets), and for any other architecture the
dict subscript `android_abi_vcpkg_triplets[arch]` raises `KeyError(arch)` — it
never reaches the `raise ValueError('Unknown android architecture ...')`
guard, whose condition `triplet is None` is always false because the dict
stores only strings.  In particular `"mips"` fails with `KeyError`, not with
the dedicated unsupported-architecture `ValueError` that the spec calls
`UnsupportedArchitecture`. -/
theorem C2_android_abi_mapping :
    android_abi_vcpkg_triplets.lookup "arm64-v8a" = some "arm64-android" ∧
    android_abi_vcpkg_triplets.lookup "x86_64" = some "x64-android" ∧
    android_abi_vcpkg_triplets.lookup "armeabi-v7a" = some "arm-android" ∧
    android_abi_vcpkg_triplets.lookup "x86" = some "x86-android" ∧
    (∀ oracle arch, stepOutcome oracle (Step.resolveTriplet arch) =
      match android_abi_vcpkg_triplets.lookup arch with
      | some _ => .ok ()
      | none => .error (.keyError arch)) ∧
    stepOutcome oracleAll (Step.resolveTriplet "mips") = .error (.keyError "mips") ∧
    (∀ trp, triplet_is_none trp = false) := by
  refine ⟨by decide, by decide, by decide, by decide, ?_, by decide, fun _ => rfl⟩
  intro oracle arch
  cases h : android_abi_vcpkg_triplets.lookup arch <;>
    simp [stepOutcome, h, triplet_is_none]

/-! ### C3: fail-fast across the scheduled steps -/

/-- C3: in any run, if every step scheduled before position `k` succeeds and
the configure/build/test step at position `k` exits nonzero, then the run
attempts exactly the steps up to and including `k` — no later step of any
later variant is attempted — and terminates with the `BuildFailed`/`TestFailed`
error of that step (an uncaught `CalledProcessError`, hence a nonzero process
exit). -/
theorem C3_fail_fast (host : Host) (args : Args) (gitVersion : String)
    (oracle : Step → Bool) (k : Nat) (s : Step)
    (hget : (build_steps host args gitVersion).get? k = some s)
    (hvar : is_variant_step s = true)
    (hpre : ∀ x ∈ (build_steps host args gitVersion).take k,
      stepOutcome oracle x = .ok ())
    (hfail : oracle s = false) :
    build host args gitVersion oracle =
      ((build_steps host args gitVersion).take (k + 1),
       .error (.stepFailed s.name)) := by
  have herr : stepOutcome oracle s = .error (.stepFailed s.name) := by
    cases s <;> simp_all [is_variant_step, stepOutcome, fallible]
  exact runSteps_fail oracle _ _ k s hget hpre herr

/-- C3 witness: on Linux, when the configure of the first variant
(`linux_x64`, schedule position 2) fails, the run stops after three steps with
that step's failure; the second variant is never attempted. -/
theorem C3_fail_fast_witness :
    build hostLinux argsPlain "v1.0.0" oracleFailLinuxConf =
      ((build_steps hostLinux argsPlain "v1.0.0").take 3,
       .error (.stepFailed (Step.configure "linux_x64").name)) :=
  C3_fail_fast hostLinux argsPlain "v1.0.0" oracleFailLinuxConf 2
    (Step.configure "linux_x64") (by decide) (by decide) (by decide) (by decide)

/-! ### C10: skip-build bypasses the Android ABI validation -/

/-- C10: with `--skip-build`, `build_android` returns the variant's build
directory for every architecture string without raising and without any step:
no directory is created and the ABI→triplet resolution (where the `KeyError`
of an unknown architecture would occur) is never reached, because the skip
check precedes it. -/
theorem C10_skip_build_bypasses_abi_validation (oracle : Step → Bool)
    (path_to_build arch subfolder : String) :
    build_android_steps true path_to_build arch subfolder = [] ∧
    build_android oracle true path_to_build arch subfolder
      = ([], .ok (path_to_build ++ "/" ++ subfolder)) ∧
    (∀ p, Step.mkdirP p ∉ build_android_steps true path_to_build arch subfolder) ∧
    Step.resolveTriplet arch ∉ build_android_steps true path_to_build arch subfolder := by
  refine ⟨rfl, rfl, ?_, ?_⟩ <;> simp [build_android_steps]

/-- C10 witness: with `--skip-build`, even the unsupported architecture
`"mips"` yields the build directory with no step attempted and no error. -/
theorem C10_skip_build_bypasses_abi_validation_witness :
    build_android oracleAll true "build" "mips" "android_mips"
      = ([], .ok ("build" ++ "/" ++ "android_mips")) :=
  (C10_skip_build_bypasses_abi_validation oracleAll "build" "mips"
    "android_mips").2.1

/-! ### C4: the Android variant matrix -/

/-- C4: the Android fan-out is exactly the four ABIs `arm64-v8a`, `x86_64`,
`armeabi-v7a`, `x86` in that order, each emitted twice — first without and
then with the logging backend flag (the `spdlog=True` call adds exactly the
`RAV_ENABLE_SPDLOG=ON` cmake option) — with eight pairwise-distinct
subfolders; and the Android step schedule is identical for any values of
`debug`, `asan` and `tsan`. -/
theorem C4_android_matrix (armP debug asan tsan debug2 asan2 tsan2 skip upload : Bool)
    (bd bn gv : String) :
    android_variant_calls.map (fun c => c.1)
      = ["arm64-v8a", "arm64-v8a", "x86_64", "x86_64", "armeabi-v7a",
         "armeabi-v7a", "x86", "x86"] ∧
    android_variant_calls.map (fun c => c.2.2)
      = [false, true, false, true, false, true, false, true] ∧
    (android_variant_calls.map (fun c => c.2.1)).Nodup ∧
    build_steps ⟨.darwin, armP⟩ (mkArgs debug bd false bn skip upload true asan tsan) gv
      = build_steps ⟨.darwin, armP⟩
          (mkArgs debug2 bd false bn skip upload true asan2 tsan2) gv ∧
    (∀ home bn2 arch trp, android_cmake_options home bn2 arch trp true
      = android_cmake_options home bn2 arch trp false
        ++ [("RAV_ENABLE_SPDLOG", "ON")]) := by
  refine ⟨by decide, by decide, by decide, rfl, ?_⟩
  intro home bn2 arch trp
  simp [android_cmake_options]

/-! ### C5: tests run right after their variant's build -/

theorem beq_darwin_darwin : (HostSystem.darwin == HostSystem.darwin) = true := rfl

theorem beq_windows_darwin : (HostSystem.windows == HostSystem.darwin) = false := rfl

theorem beq_linux_darwin : (HostSystem.linux == HostSystem.darwin) = false := rfl

theorem joinBlocks_no_test (f : α → List Step) (l : List α)
    (hf : ∀ x, ∀ st ∈ f x, is_test_step st = false) :
    ∀ st ∈ joinBlocks f l, is_test_step st = false := by
  induction l with
  | nil => simp [joinBlocks]
  | cons x xs ih =>
    intro st hst
    rcases List.mem_append.mp hst with h | h
    · exact hf x st h
    · exact ih st h

/-- C5 (amended): on the tested platforms — macOS without `--android`/`--dist`,
Windows, Linux — the schedule is exactly a sequence of per-variant blocks in
plan order, each consisting of that variant's build steps immediately followed
by its test step(s) (so every test runs right after its own build and before
any step of the next variant); a variant's build steps contain no test step
and its test block starts with the primary test run and is nonempty.  The
Android fan-out, by contrast, schedules no test step at all for any of its
eight variants. -/
theorem C5_test_after_build (sys : HostSystem)
    (armP debug skip upload asan tsan : Bool) (bd bn gv : String) :
    build_steps ⟨sys, armP⟩ (mkArgs debug bd false bn skip upload false asan tsan) gv
      = Step.mkdirP "test-reports"
        :: joinBlocks
            (fun sub => build_variant_steps skip bd sub
              ++ run_test_steps (sys == .darwin) armP sub)
            (tested_variant_plan ⟨sys, armP⟩
              (mkArgs debug bd false bn skip upload false asan tsan)) ∧
    (∀ darwinB armB r, (run_test_steps darwinB armB r).head? = some (Step.test r) ∧
      run_test_steps darwinB armB r ≠ [] ∧
      ∀ st ∈ run_test_steps darwinB armB r, is_test_step st = true) ∧
    (∀ sk bd2 sub, ∀ st ∈ build_variant_steps sk bd2 sub,
      is_test_step st = false) ∧
    (∀ armB debug2 sk2 up2 asan2 tsan2 : Bool, ∀ bd2 bn2 gv2 : String,
      ∀ st ∈ build_steps ⟨.darwin, armB⟩
        (mkArgs debug2 bd2 false bn2 sk2 up2 true asan2 tsan2) gv2,
      is_test_step st = false) := by
  refine ⟨?_, ?_, ?_, ?_⟩
  · cases sys <;> cases asan <;> cases tsan <;>
      simp [build_steps, tested_variant_plan, joinBlocks, mkArgs,
        beq_darwin_darwin, beq_windows_darwin, beq_linux_darwin]
  · intro darwinB armB r
    cases darwinB <;> cases armB <;> simp [run_test_steps, is_test_step]
  · intro sk bd2 sub st hst
    cases sk <;> simp [build_variant_steps] at hst <;>
      rcases hst with rfl | rfl | rfl <;> rfl
  · intro armB debug2 sk2 up2 asan2 tsan2 bd2 bn2 gv2 st hst
    simp [build_steps, mkArgs] at hst
    rcases hst with rfl | hst
    · rfl
    · refine joinBlocks_no_test _ android_variant_calls ?_ st hst
      intro x st2 hst2
      cases sk2 <;> simp [build_android_steps] at hst2 <;>
        rcases hst2 with rfl | rfl | rfl | rfl <;> rfl

/-- C5 witness: the Linux schedule at the default arguments in block form. -/
theorem C5_test_after_build_witness :
    build_steps ⟨HostSystem.linux, false⟩
        (mkArgs false "build" false "0" false false false false false) "v1.0.0"
      = Step.mkdirP "test-reports"
        :: joinBlocks
            (fun sub => build_variant_steps false "build" sub
              ++ run_test_steps (HostSystem.linux == .darwin) false sub)
            (tested_variant_plan ⟨HostSystem.linux, false⟩
              (mkArgs false "build" false "0" false false false false false)) :=
  (C5_test_after_build HostSystem.linux false false false false false false
    "build" "0" "v1.0.0").1

/-- C5 counterexample: the Android run schedules its eight variants' configure
steps but not a single test step, so no Android variant's Test Runner step is
ever executed, contrary to the claim that every emitted variant is tested. -/
theorem C5_counterexample :
    ((build_steps hostDarwin argsAndroid "v1.0.0").countP
      (fun s => is_test_step s)) = 0 ∧
    ((build_steps hostDarwin argsAndroid "v1.0.0").countP
      (fun s => is_configure_step s)) = 8 := by
  exact ⟨rfl, rfl⟩

/-! ### C7: the distribution allow-list -/

/-- C7: a working-tree file that is not reachable from the hand-enumerated
allow-list (the eight `copytree` directories and six `copy2` files) is never
copied into the staging tree, and can therefore only coincide with one of the
two generated metadata paths in the produced archive — it is never taken from
the working tree. -/
theorem C7_allow_list (workTree : List String) (f : String)
    (hf : f ∈ workTree) (hna : allowListed f = false) :
    f ∉ distStagedFiles workTree ∧
    (f ∈ distArchiveFiles workTree →
      f = "version.json" ∨ f = "cmake/version.cmake") := by
  have hstaged : f ∉ distStagedFiles workTree := by
    intro h
    have := (List.mem_filter.mp h).2
    rw [hna] at this
    exact Bool.false_ne_true this
  refine ⟨hstaged, ?_⟩
  intro h
  rcases List.mem_append.mp h with h | h
  · exact absurd h hstaged
  · simpa using h

/-- C7 witness: a stray `secrets.txt` in the working tree is not staged and
appears in the archive only if it were one of the generated metadata names,
which it is not. -/
theorem C7_allow_list_witness :
    "secrets.txt" ∉ distStagedFiles ["secrets.txt", "include/ravenna.h"] ∧
    ("secrets.txt" ∈ distArchiveFiles ["secrets.txt", "include/ravenna.h"] →
      "secrets.txt" = "version.json" ∨ "secrets.txt" = "cmake/version.cmake") :=
  C7_allow_list ["secrets.txt", "include/ravenna.h"] "secrets.txt"
    (by decide) (by decide)

/-! ### C8: the artifact publisher -/

/-- C8: `upload_to_spaces` fails with the missing-credentials error when the
key (respectively the secret) is absent or empty; given both credentials it
uploads to bucket `ravennakit` under object key
`branches/<branch>/<filename>` for any branch other than `HEAD`, and under
`archive/<version>/<filename>` when the branch shorthand is `HEAD`. -/
theorem C8_publisher (spaces_key spaces_secret : Option String)
    (git_branch git_version fileName : String) :
    (truthy spaces_key = false →
      upload_to_spaces spaces_key spaces_secret git_branch git_version fileName
        = .error (.missingCredentials "Need spaces key")) ∧
    (truthy spaces_key = true → truthy spaces_secret = false →
      upload_to_spaces spaces_key spaces_secret git_branch git_version fileName
        = .error (.missingCredentials "Need spaces secret")) ∧
    (truthy spaces_key = true → truthy spaces_secret = true →
      git_branch ≠ "HEAD" →
      upload_to_spaces spaces_key spaces_secret git_branch git_version fileName
        = .ok ("ravennakit", "branches/" ++ git_branch ++ "/" ++ fileName)) ∧
    (truthy spaces_key = true → truthy spaces_secret = true →
      git_branch = "HEAD" →
      upload_to_spaces spaces_key spaces_secret git_branch git_version fileName
        = .ok ("ravennakit", "archive/" ++ git_version ++ "/" ++ fileName)) := by
  refine ⟨?_, ?_, ?_, ?_⟩
  · intro h1; simp [upload_to_spaces, h1]
  · intro h1 h2; simp [upload_to_spaces, h1, h2]
  · intro h1 h2 h3; simp [upload_to_spaces, h1, h2, h3]
  · intro h1 h2 h3; simp [upload_to_spaces, h1, h2, h3]

/-- C8 witness: the four behaviours at concrete credential/branch values. -/
theorem C8_publisher_witness :
    upload_to_spaces none (some "s") "main" "v1.2.3" "a.zip"
      = .error (.missingCredentials "Need spaces key") ∧
    upload_to_spaces (some "k") none "main" "v1.2.3" "a.zip"
      = .error (.missingCredentials "Need spaces secret") ∧
    upload_to_spaces (some "k") (some "s") "main" "v1.2.3" "a.zip"
      = .ok ("ravennakit", "branches/main/a.zip") ∧
    upload_to_spaces (some "k") (some "s") "HEAD" "v1.2.3" "a.zip"
      = .ok ("ravennakit", "archive/v1.2.3/a.zip") :=
  ⟨(C8_publisher none (some "s") "main" "v1.2.3" "a.zip").1 (by decide),
   (C8_publisher (some "k") none "main" "v1.2.3" "a.zip").2.1 (by decide) (by decide),
   (C8_publisher (some "k") (some "s") "main" "v1.2.3" "a.zip").2.2.1
     (by decide) (by decide) (by decide),
   (C8_publisher (some "k") (some "s") "HEAD" "v1.2.3" "a.zip").2.2.2
     (by decide) (by decide) rfl⟩

/-! ### C9: archive naming and idempotent overwrite -/

theorem string_data_append (a b : String) : (a ++ b).data = a.data ++ b.data := by
  cases a; cases b; rfl

theorem docs_zip_ne_dist_zip (bd v n : String) :
    docs_archive_base bd v n ++ ".zip" ≠ dist_archive_base bd v n ++ ".zip" := by
  intro h
  have h2 := congrArg String.data h
  simp only [docs_archive_base, dist_archive_base, string_data_append,
    List.append_assoc] at h2
  have h3 := List.append_cancel_left h2
  have h4 := List.append_cancel_left h3
  have h5 := List.append_cancel_left h4
  have h6 := List.append_cancel_left h5
  have h7 := List.append_cancel_left h6
  exact absurd h7 (by decide)

/-- Normal form of the archive phase: after running the four operations, the
filesystem holds a fresh docs zip and a fresh dist zip and is otherwise
unchanged. -/
theorem applyFsOps_zip (bd v n : String) (fs : String → Option String) :
    applyFsOps fs (zip_ops bd v n) = fun q =>
      if q = dist_archive_base bd v n ++ ".zip" then some (bd ++ "/dist")
      else if q = docs_archive_base bd v n ++ ".zip" then
        some (bd ++ "/dist/docs/html")
      else fs q := by
  funext q
  simp only [zip_ops, applyFsOps, applyFsOp]
  by_cases h1 : q = dist_archive_base bd v n ++ ".zip" <;>
    by_cases h2 : q = docs_archive_base bd v n ++ ".zip" <;>
      simp [h1, h2, docs_zip_ne_dist_zip bd v n]

/-- C9: for a fixed version and build number, `build_dist` produces exactly
two archives, `<build>/ravennakit-<version>-<buildNumber>-docs.zip` and
`<build>/ravennakit-<version>-<buildNumber>-dist.zip` (two distinct paths),
removing any pre-existing file at each path before writing, so running the
archive phase twice leaves the filesystem exactly as one run does (overwrite,
not append); and the function returns the dist archive path, not the docs
archive path. -/
theorem C9_archives (bd v n : String) (fs : String → Option String) :
    applyFsOps (applyFsOps fs (zip_ops bd v n)) (zip_ops bd v n)
      = applyFsOps fs (zip_ops bd v n) ∧
    applyFsOps fs (zip_ops bd v n) (docs_archive_base bd v n ++ ".zip")
      = some (bd ++ "/dist/docs/html") ∧
    applyFsOps fs (zip_ops bd v n) (dist_archive_base bd v n ++ ".zip")
      = some (bd ++ "/dist") ∧
    (zip_ops bd v n).filterMap FsOp.writtenPath
      = [docs_archive_base bd v n ++ ".zip",
         dist_archive_base bd v n ++ ".zip"] ∧
    docs_archive_base bd v n ++ ".zip" ≠ dist_archive_base bd v n ++ ".zip" ∧
    build_dist_return bd v n = dist_archive_base bd v n ++ ".zip" := by
  refine ⟨?_, ?_, ?_, rfl, docs_zip_ne_dist_zip bd v n, rfl⟩
  · rw [applyFsOps_zip, applyFsOps_zip]
    funext q
    by_cases h1 : q = dist_archive_base bd v n ++ ".zip" <;>
      by_cases h2 : q = docs_archive_base bd v n ++ ".zip" <;>
        simp [h1, h2]
  · rw [applyFsOps_zip]
    simp [docs_zip_ne_dist_zip bd v n]
  · rw [applyFsOps_zip]
    simp

/-- C9 witness: at concrete values the two archive names differ and the dist
archive path is returned. -/
theorem C9_archives_witness :
    docs_archive_base "build" "v1.2.3" "7" ++ ".zip"
      ≠ dist_archive_base "build" "v1.2.3" "7" ++ ".zip" ∧
    build_dist_return "build" "v1.2.3" "7"
      = dist_archive_base "build" "v1.2.3" "7" ++ ".zip" :=
  ⟨(C9_archives "build" "v1.2.3" "7" (fun _ => none)).2.2.2.2.1,
   (C9_archives "build" "v1.2.3" "7" (fun _ => none)).2.2.2.2.2⟩

/-! ### C6: invalid version and the position of the version check -/

/-- C6 (amended): only a distribution run (`--dist` on the Darwin host)
validates the describe string.  There, when the string does not match the
version regex and the documentation steps succeed, the run fails with
`InvalidVersionFormat` — and since a dist run schedules no variant
configure/build/test step at all, none is attempted, neither before nor after
the failure.  (Non-dist runs never parse the version; see the
counterexample.) -/
theorem C6_dist_invalid_version (armP debug skip upload android asan tsan : Bool)
    (bd bn gv : String) (oracle : Step → Bool)
    (hiv : reMatchVersion gv.toList = none)
    (hdox : oracle Step.doxygen = true)
    (hgen : oracle Step.genDocs = true) :
    (build ⟨.darwin, armP⟩ (mkArgs debug bd true bn skip upload android asan tsan)
        gv oracle).2
      = .error (.invalidVersionFormat gv) ∧
    NoVariantStep
      (build ⟨.darwin, armP⟩ (mkArgs debug bd true bn skip upload android asan tsan)
        gv oracle).1 ∧
    NoVariantStep
      (build_steps ⟨.darwin, armP⟩
        (mkArgs debug bd true bn skip upload android asan tsan) gv) := by
  have hall : (build_steps ⟨.darwin, armP⟩
      (mkArgs debug bd true bn skip upload android asan tsan) gv).all
        (fun s => !is_variant_step s) = true := by
    cases upload <;> rfl
  have hsched : NoVariantStep (build_steps ⟨.darwin, armP⟩
      (mkArgs debug bd true bn skip upload android asan tsan) gv) := by
    intro s hs
    have := List.all_eq_true.mp hall s hs
    simpa using this
  have hiv2 : reMatchVersion gv.data = none := hiv
  refine ⟨?_, ?_, hsched⟩
  · simp [build, build_steps, build_dist_steps, mkArgs, copytree_dirs,
      copy2_files, runSteps, stepOutcome, fallible, hdox, hgen, hiv, hiv2]
  · intro s hs
    exact hsched s (runSteps_trace_subset oracle _ s hs)

/-- C6 witness: a dist run on an invalid describe string `"garbage"` in an
otherwise successful environment fails with `InvalidVersionFormat`, with no
variant step scheduled or attempted. -/
theorem C6_dist_invalid_version_witness :
    (build hostDarwin argsDist "garbage" oracleAll).2
      = .error (.invalidVersionFormat "garbage") ∧
    NoVariantStep (build hostDarwin argsDist "garbage" oracleAll).1 ∧
    NoVariantStep (build_steps hostDarwin argsDist "garbage") :=
  C6_dist_invalid_version false false false false false false false "build" "0"
    "garbage" oracleAll rfl rfl rfl

/-- C6 counterexample: a non-dist run (here a plain macOS run) under the
invalid describe string `"garbage"` does not fail at all — it completes
successfully, attempting the variant's configure and test steps under the
invalid version, because the regex check lives only in `build_dist`. -/
theorem C6_counterexample :
    reMatchVersion "garbage".toList = none ∧
    (build hostDarwin argsPlain "garbage" oracleAll).2 = .ok () ∧
    Step.configure "macos_universal" ∈
      (build hostDarwin argsPlain "garbage" oracleAll).1 ∧
    Step.test "macos_universal" ∈
      (build hostDarwin argsPlain "garbage" oracleAll).1 :=
  ⟨rfl, rfl, by decide, by decide⟩

end Ravenna

